import Mathlib

/-!
Shallow embedding of the client-side filtering logic in
`src/page_template/script.js` of the pico-compatible-boards repository,
together with the filter-control builder (`populateFilters`) and the
image-preview modal handlers.

Modelling conventions:
  - A board record carries the fields read by the predicate and the
    builder.  Single-valued attributes (`chip`, `cores`, `usb`,
    `dimensions`) are `Option String` (`none` models an absent /
    `undefined` field); the checkbox values obtained from the DOM are
    strings, so attribute values are modelled as strings throughout.
  - Multi-valued attributes (`connectivity`, `connectors`) are
    `Option (List String)` (`none` models an absent field; a present
    field is a JS array of tags).
  - The two numeric range inputs of a pair are modelled as
    `Option Int`: `none` is a blank or unparseable input (JS
    `parseInt` returning `NaN`), `some n` a successfully parsed
    integer.  The JS fallback `parseInt(v) || 0` maps `NaN` and `0`
    alike to the default, which the embedding reproduces exactly.
  - `row.flash_bytes / 1024` is JS number division; for the byte
    counts involved it is exact, and it is embedded as division in
    `Rat`.
-/

namespace PicoBoards

/-- Embeds one board record of `board_data.json` with the fields the
filter predicate and the filter builder read. -/
structure Board where
  chip : Option String
  cores : Option String
  usb : Option String
  dimensions : Option String
  connectivity : Option (List String)
  connectors : Option (List String)
  smd : Bool
  flash_bytes : Nat
  ram_bytes : Nat
deriving Repr, DecidableEq

/-- Embeds the live control state read by the search callback: for each
checkbox group the list of checked values (in DOM order), and the four
numeric range inputs (`none` = blank or unparseable). -/
structure FilterState where
  chipSel : List String
  coresSel : List String
  usbSel : List String
  dimensionsSel : List String
  connectivitySel : List String
  connectorsSel : List String
  smdSel : List String
  flashMin : Option Int
  flashMax : Option Int
  ramMin : Option Int
  ramMax : Option Int
deriving Repr, DecidableEq

/-- The filter state in which no checkbox is checked and all four range
inputs are blank. -/
def emptyFilter : FilterState :=
  { chipSel := [], coresSel := [], usbSel := [], dimensionsSel := []
  , connectivitySel := [], connectorsSel := [], smdSel := []
  , flashMin := none, flashMax := none, ramMin := none, ramMax := none }

/-- Embeds the single-valued branch of the search callback (script.js
lines 232-236): with a non-empty checked set, the row passes iff
`selectedOptions.includes(row[key])`; an absent attribute
(`row[key] === undefined`) is never an element of the checked string
values, so it fails. -/
def singleMatch (sel : List String) (v : Option String) : Bool :=
  if sel.isEmpty then true
  else
    match v with
    | none => false
    | some x => sel.contains x

/-- Embeds the multi-valued branch of the search callback (script.js
lines 219-226): with a non-empty checked set, the row fails if the
attribute is absent (`!row.connectivity`) or if
`selectedOptions.some(opt => !row.connectivity.includes(opt))`. -/
def multiMatch (sel : List String) (v : Option (List String)) : Bool :=
  if sel.isEmpty then true
  else
    match v with
    | none => false
    | some xs => !(sel.any (fun o => !(xs.contains o)))

/-- Embeds the boolean (smd) branch of the search callback (script.js
lines 227-231): the row boolean is rendered as the string Yes or No,
and the row fails only when exactly one option is checked and it is not
that string. -/
def smdMatch (sel : List String) (smd : Bool) : Bool :=
  if sel.isEmpty then true
  else
    let strValue := if smd then "Yes" else "No"
    if sel.length == 1 && !(sel.contains strValue) then false else true

/-- Embeds the minimum-input parse, `parseInt` with fallback 0, of
script.js (lines 243,
250): `NaN` (a blank or unparseable input) and a parsed `0` are both
falsy and yield the default `0`. -/
def parsedMin (v : Option Int) : Int :=
  match v with
  | none => 0
  | some n => if n == 0 then 0 else n

/-- Embeds the maximum-input parse, `parseInt` with fallback Infinity,
of script.js (lines 244, 251): `NaN` and a parsed `0` are falsy and yield `Infinity`,
modelled as `none` (no upper bound). -/
def parsedMax (v : Option Int) : Option Int :=
  match v with
  | none => none
  | some n => if n == 0 then none else some n

/-- Embeds one range check of the search callback (script.js lines
243-255): the row byte count divided by 1024 must lie in the inclusive
interval between the parsed minimum and the parsed maximum (`Infinity`
imposing no upper bound). -/
def rangeMatch (vmin vmax : Option Int) (bytes : Nat) : Bool :=
  let kb : Rat := (bytes : Rat) / 1024
  decide (((parsedMin vmin : Int) : Rat) ≤ kb) &&
    (match parsedMax vmax with
     | none => true
     | some hi => decide (kb ≤ ((hi : Int) : Rat)))

/-- Embeds the whole row-inclusion predicate pushed onto
`$.fn.dataTable.ext.search` (script.js lines 201-258): the checkbox
groups are evaluated in the source key order with a short-circuiting
`matched` flag, then the flash range, then the RAM range. -/
def rowIncluded (f : FilterState) (row : Board) : Bool :=
  singleMatch f.chipSel row.chip &&
  singleMatch f.coresSel row.cores &&
  singleMatch f.usbSel row.usb &&
  singleMatch f.dimensionsSel row.dimensions &&
  multiMatch f.connectivitySel row.connectivity &&
  multiMatch f.connectorsSel row.connectors &&
  smdMatch f.smdSel row.smd &&
  rangeMatch f.flashMin f.flashMax row.flash_bytes &&
  rangeMatch f.ramMin f.ramMax row.ram_bytes

/-! Filter-domain builder (`populateFilters`, script.js lines 117-199).
The option Sets of the seven groups are JS `Set` objects: insertion
order is preserved and a duplicate add is ignored, which `insertSet`
embeds on lists. -/

/-- Embeds `Set.prototype.add` on an insertion-ordered duplicate-free
list. -/
def insertSet (s : List String) (x : String) : List String :=
  if s.contains x then s else s ++ [x]

/-- Embeds the collection step for a single-valued attribute (script.js
lines 130-140): `if(board.key) filters.key.options.add(board.key)`; an
absent field and the empty string are falsy and are skipped. -/
def addTruthy (s : List String) (v : Option String) : List String :=
  match v with
  | none => s
  | some x => if x == "" then s else insertSet s x

/-- Embeds the collection step for a multi-valued attribute (script.js
lines 142-146): `if(board.key) board.key.forEach(t => options.add(t))`;
an absent field is skipped, a present array has every tag added. -/
def addAll (s : List String) (v : Option (List String)) : List String :=
  match v with
  | none => s
  | some xs => xs.foldl insertSet s

/-- Distinct chip values collected over the dataset, in first-occurrence
order. -/
def chipOptions (data : List Board) : List String :=
  data.foldl (fun s b => addTruthy s b.chip) []

/-- Distinct cores values collected over the dataset. -/
def coresOptions (data : List Board) : List String :=
  data.foldl (fun s b => addTruthy s b.cores) []

/-- Distinct usb values collected over the dataset. -/
def usbOptions (data : List Board) : List String :=
  data.foldl (fun s b => addTruthy s b.usb) []

/-- Distinct dimensions values collected over the dataset. -/
def dimensionsOptions (data : List Board) : List String :=
  data.foldl (fun s b => addTruthy s b.dimensions) []

/-- Distinct connectivity tags collected over the dataset. -/
def connectivityOptions (data : List Board) : List String :=
  data.foldl (fun s b => addAll s b.connectivity) []

/-- Distinct connectors tags collected over the dataset. -/
def connectorsOptions (data : List Board) : List String :=
  data.foldl (fun s b => addAll s b.connectors) []

/-- The fixed option array of the smd group (script.js line 126). -/
def smdOptions : List String := ["Yes", "No"]

/-- Models the sort comparator of script.js line 157,
`a.localeCompare(b, undefined, ...)` with base sensitivity, as a
case-insensitive lexicographic comparison: compare the lowercased
strings. -/
def ciLe (a b : String) : Bool := decide (a.toLower ≤ b.toLower)

/-- Embeds `Array.from(filter.options).sort(comparator)` (script.js
line 157): a sort of the option list under the case-insensitive
comparator. -/
def sortOptions (opts : List String) : List String := opts.mergeSort ciLe

/-- Embeds `String.prototype.replace` with the pattern of script.js
line 166, which deletes every non-word character: the regex word class
keeps exactly ASCII letters, ASCII digits and the underscore. -/
def replaceNonWord : List Char → List Char
  | [] => []
  | c :: cs =>
      if c.isAlphanum || c == '_' then c :: replaceNonWord cs
      else replaceNonWord cs

/-- The option value with its non-word characters deleted. -/
def stripNonWord (s : String) : String := String.mk (replaceNonWord s.data)

/-- Embeds the checkbox id computation of script.js line 166: the
attribute key, a hyphen, and the option value stripped of non-word
characters. -/
def optionId (key optionVal : String) : String :=
  key ++ "-" ++ stripNonWord optionVal

/-- Follows the words of the spec, for comparison with `optionId`: the
attribute key joined with the option value with all non-alphanumeric
characters stripped from the value. -/
def specAlnumOptionId (key optionVal : String) : String :=
  key ++ "-" ++ String.mk (optionVal.data.filter Char.isAlphanum)

/-- Embeds the rendered checkbox values of one filter group, in render
order (script.js lines 149-177): the collected options are sorted with
the case-insensitive comparator, except the smd group, whose fixed
option array is used unsorted; the render loop then skips falsy
(empty-string) options. -/
def renderedValues (key : String) (data : List Board) : List String :=
  let opts :=
    if key == "smd" then smdOptions
    else if key == "chip" then chipOptions data
    else if key == "cores" then coresOptions data
    else if key == "usb" then usbOptions data
    else if key == "dimensions" then dimensionsOptions data
    else if key == "connectivity" then connectivityOptions data
    else connectorsOptions data
  let sorted := if key == "smd" then opts else sortOptions opts
  sorted.filter (fun o => !(o == ""))

/-- The raw values a record contributes to a filter group, before the
falsy skips: the attribute value of a single-valued group, the tag list
of a multi-valued group. -/
def observedValues (key : String) (b : Board) : List String :=
  if key == "chip" then b.chip.toList
  else if key == "cores" then b.cores.toList
  else if key == "usb" then b.usb.toList
  else if key == "dimensions" then b.dimensions.toList
  else if key == "connectivity" then b.connectivity.getD []
  else b.connectors.getD []

/-! Image-preview modal (script.js lines 260-313).  The DOM state the
three handlers read and write is the modal title, the `src`, `alt` and
`display` of `#modalImageDisplay`, and the loading spinner, which does
not exist until the first open creates it (`none` = no spinner element,
`some b` = the element exists and `b` says whether it is visible). -/

/-- DOM state of the image-preview modal. -/
structure ModalState where
  title : String
  imgSrc : String
  imgAlt : String
  imgDisplayed : Bool
  spinner : Option Bool
deriving Repr, DecidableEq

/-- The default modal title, used as the `||` fallback on open (line
266) and restored on dismissal (line 312). -/
def defaultTitle : String := "Board Image"

/-- The modal state of the freshly loaded page: default title, empty
hidden image, no spinner element yet. -/
def initialModal : ModalState :=
  { title := defaultTitle, imgSrc := "", imgAlt := "", imgDisplayed := false
  , spinner := none }

/-- Embeds the `show.bs.modal` listener (script.js lines 262-299) up to
the start of the background image fetch: the title is set from the
trigger data (falling back to the default when the attribute is absent
or empty), the image source is cleared and the image hidden, and the
spinner is created if missing and shown. -/
def showModal (imgTitleAttr : Option String) (_ : ModalState) : ModalState :=
  let imgTitle :=
    match imgTitleAttr with
    | none => defaultTitle
    | some t => if t == "" then defaultTitle else t
  { title := imgTitle, imgSrc := "", imgAlt := "Loading...", imgDisplayed := false
  , spinner := some true }

/-- Embeds `fullImg.onload` (script.js lines 287-292): the real image
source and caption are installed, the image shown, the spinner hidden. -/
def imgOnload (imgSrc imgTitle : String) (s : ModalState) : ModalState :=
  { s with
    imgSrc := imgSrc, imgAlt := imgTitle, imgDisplayed := true,
    spinner := s.spinner.map (fun _ => false) }

/-- Embeds `fullImg.onerror` (script.js lines 293-297): the alt text
becomes the failure caption, the image element is given display block,
the spinner is hidden; the image source is not touched. -/
def imgOnerror (s : ModalState) : ModalState :=
  { s with
    imgAlt := "Failed to load image!", imgDisplayed := true,
    spinner := s.spinner.map (fun _ => false) }

/-- Embeds the `hidden.bs.modal` listener (script.js lines 301-313):
the image source is cleared and the image hidden, the spinner, if it
exists, is hidden, and the title is reset to the default. -/
def hideModal (s : ModalState) : ModalState :=
  { s with
    imgSrc := "", imgDisplayed := false,
    spinner := s.spinner.map (fun _ => false), title := defaultTitle }

/-- A board with a given flash byte count and everything else trivial,
for the concrete range scenarios. -/
def boardOfFlash (n : Nat) : Board :=
  { chip := none, cores := none, usb := none, dimensions := none
  , connectivity := none, connectors := none, smd := false
  , flash_bytes := n, ram_bytes := 0 }

/-! Helper lemmas about the predicate pieces. -/

/-- Characterization of the multi-valued branch for a non-empty checked
set: the row passes iff the attribute is present and contains every
checked value. -/
theorem multiMatch_eq_true_iff (sel : List String) (v : Option (List String))
    (h : sel ≠ []) :
    multiMatch sel v = true ↔ ∃ xs, v = some xs ∧ ∀ o ∈ sel, o ∈ xs := by
  obtain ⟨a, as, rfl⟩ : ∃ a as, sel = a :: as := by
    cases sel with
    | nil => exact absurd rfl h
    | cons a as => exact ⟨a, as, rfl⟩
  cases v with
  | none => simp [multiMatch]
  | some xs => simp [multiMatch]

/-- Characterization of the single-valued branch for a non-empty
checked set: the row passes iff the attribute is present and its value
is checked. -/
theorem singleMatch_eq_true_iff (sel : List String) (v : Option String)
    (h : sel ≠ []) :
    singleMatch sel v = true ↔ ∃ x, v = some x ∧ x ∈ sel := by
  obtain ⟨a, as, rfl⟩ : ∃ a as, sel = a :: as := by
    cases sel with
    | nil => exact absurd rfl h
    | cons a as => exact ⟨a, as, rfl⟩
  cases v with
  | none => simp [singleMatch]
  | some x => simp [singleMatch]

/-- Splitting the conjunction of the full predicate into its nine
component checks. -/
theorem rowIncluded_eq_true_iff (f : FilterState) (row : Board) :
    rowIncluded f row = true ↔
      singleMatch f.chipSel row.chip = true ∧
      singleMatch f.coresSel row.cores = true ∧
      singleMatch f.usbSel row.usb = true ∧
      singleMatch f.dimensionsSel row.dimensions = true ∧
      multiMatch f.connectivitySel row.connectivity = true ∧
      multiMatch f.connectorsSel row.connectors = true ∧
      smdMatch f.smdSel row.smd = true ∧
      rangeMatch f.flashMin f.flashMax row.flash_bytes = true ∧
      rangeMatch f.ramMin f.ramMax row.ram_bytes = true := by
  simp [rowIncluded, Bool.and_eq_true, and_assoc]

/-- C1: if no filter checkbox is checked in any group and both numeric
range inputs of each range pair are blank, the row-inclusion predicate
returns true for every board record: filtering with an empty selection
restricts nothing. -/
theorem C1_empty_filter_restricts_nothing (row : Board) :
    rowIncluded emptyFilter row = true := by
  simp only [rowIncluded, emptyFilter, singleMatch, multiMatch, smdMatch,
    rangeMatch, parsedMin, parsedMax, List.isEmpty_nil, if_true,
    Bool.true_and, Bool.and_true, Int.cast_zero, decide_eq_true_eq,
    Bool.and_eq_true]
  constructor <;> positivity

/-- C2: for a non-empty checked set of a multi-valued attribute
(connectivity or connectors) the predicate accepts a row only if the
row possesses all checked values (AND semantics), and a row whose
multi-valued attribute is absent is rejected whenever at least one
value of that attribute is checked. -/
theorem C2_multivalued_and_semantics (row : Board) (f : FilterState)
    (hconn : f.connectivitySel ≠ []) (hcons : f.connectorsSel ≠ []) :
    (multiMatch f.connectivitySel row.connectivity = true ↔
       ∃ xs, row.connectivity = some xs ∧ ∀ o ∈ f.connectivitySel, o ∈ xs) ∧
    (multiMatch f.connectorsSel row.connectors = true ↔
       ∃ xs, row.connectors = some xs ∧ ∀ o ∈ f.connectorsSel, o ∈ xs) ∧
    (row.connectivity = none →
       multiMatch f.connectivitySel row.connectivity = false) ∧
    (rowIncluded f row = true →
       (∃ xs, row.connectivity = some xs ∧ ∀ o ∈ f.connectivitySel, o ∈ xs) ∧
       (∃ xs, row.connectors = some xs ∧ ∀ o ∈ f.connectorsSel, o ∈ xs)) := by
  refine ⟨multiMatch_eq_true_iff _ _ hconn, multiMatch_eq_true_iff _ _ hcons,
    ?_, ?_⟩
  · intro habs
    rw [← Bool.not_eq_true, multiMatch_eq_true_iff _ _ hconn, habs]
    rintro ⟨xs, hxs, -⟩
    exact Option.noConfusion hxs
  · intro hrow
    rw [rowIncluded_eq_true_iff] at hrow
    exact ⟨(multiMatch_eq_true_iff _ _ hconn).mp hrow.2.2.2.2.1,
      (multiMatch_eq_true_iff _ _ hcons).mp hrow.2.2.2.2.2.1⟩

/-- Concrete instance of C2: a board carrying both checked connectivity
tags and the one checked connector tag. -/
def c2Row : Board :=
  { boardOfFlash 0 with
    connectivity := some ["Wi-Fi", "USB-C", "BLE"], connectors := some ["GPIO"] }

/-- Filter selection for the C2 instance. -/
def c2Filter : FilterState :=
  { emptyFilter with
    connectivitySel := ["USB-C", "Wi-Fi"], connectorsSel := ["GPIO"] }

/-- Witness for C2 at a concrete board and selection. -/
theorem C2_multivalued_and_semantics_witness :
    multiMatch c2Filter.connectivitySel c2Row.connectivity = true ∧
    multiMatch ["USB-C"] (none : Option (List String)) = false :=
  ⟨((C2_multivalued_and_semantics c2Row c2Filter (by decide) (by decide)).1).mpr
      ⟨["Wi-Fi", "USB-C", "BLE"], rfl, by decide⟩,
   (C2_multivalued_and_semantics (boardOfFlash 0)
      { c2Filter with connectivitySel := ["USB-C"] }
      (by decide) (by decide)).2.2.1 rfl⟩

/-- C4: for every single-valued attribute, a non-empty checked set
accepts a row only if the attribute value of the row is one of the
checked values; with exactly one value checked, only rows whose
attribute equals that value remain. -/
theorem C4_single_valued_membership (row : Board) (f : FilterState) :
    (∀ (sel : List String) (v : Option String), sel ≠ [] →
       (singleMatch sel v = true ↔ ∃ x, v = some x ∧ x ∈ sel)) ∧
    (∀ (a : String) (v : Option String),
       (singleMatch [a] v = true ↔ v = some a)) ∧
    (rowIncluded f row = true →
       (f.chipSel ≠ [] → ∃ x, row.chip = some x ∧ x ∈ f.chipSel) ∧
       (f.coresSel ≠ [] → ∃ x, row.cores = some x ∧ x ∈ f.coresSel) ∧
       (f.usbSel ≠ [] → ∃ x, row.usb = some x ∧ x ∈ f.usbSel) ∧
       (f.dimensionsSel ≠ [] →
          ∃ x, row.dimensions = some x ∧ x ∈ f.dimensionsSel)) := by
  refine ⟨fun sel v h => singleMatch_eq_true_iff sel v h, ?_, ?_⟩
  · intro a v
    rw [singleMatch_eq_true_iff _ _ (by simp)]
    simp [eq_comm]
  · intro hrow
    rw [rowIncluded_eq_true_iff] at hrow
    exact ⟨fun h => (singleMatch_eq_true_iff _ _ h).mp hrow.1,
      fun h => (singleMatch_eq_true_iff _ _ h).mp hrow.2.1,
      fun h => (singleMatch_eq_true_iff _ _ h).mp hrow.2.2.1,
      fun h => (singleMatch_eq_true_iff _ _ h).mp hrow.2.2.2.1⟩

/-- Witness for C4 at a concrete attribute value and checked set. -/
theorem C4_single_valued_membership_witness :
    singleMatch ["RP2040"] (some "RP2040") = true ∧
    singleMatch ["RP2040"] (some "ESP32") ≠ true :=
  ⟨((C4_single_valued_membership (boardOfFlash 0) emptyFilter).2.1
      "RP2040" (some "RP2040")).mpr rfl,
   fun h =>
     Option.noConfusion
       (((C4_single_valued_membership (boardOfFlash 0) emptyFilter).2.1
           "RP2040" (some "ESP32")).mp h)
       (fun he => by exact absurd he (by decide))⟩

/-- C5: for the boolean surface-mount filter, checking exactly one of
the two options keeps exactly the rows whose boolean renders to that
option; checking zero or both options restricts nothing. -/
theorem C5_bool_filter (row : Board) (f : FilterState) :
    (f.smdSel = [] → smdMatch f.smdSel row.smd = true) ∧
    (f.smdSel = ["Yes", "No"] → smdMatch f.smdSel row.smd = true) ∧
    (∀ x, f.smdSel = [x] →
       (smdMatch f.smdSel row.smd = true ↔
          (if row.smd then "Yes" else "No") = x)) ∧
    (∀ x, f.smdSel = [x] → rowIncluded f row = true →
       (if row.smd then "Yes" else "No") = x) := by
  have hone : ∀ x, smdMatch [x] row.smd = true ↔
      (if row.smd then "Yes" else "No") = x := by
    intro x
    cases row.smd <;> simp [smdMatch, List.contains_cons]
  refine ⟨?_, ?_, ?_, ?_⟩
  · rintro h
    rw [h]; rfl
  · rintro h
    rw [h]
    cases row.smd <;> rfl
  · rintro x h
    rw [h]; exact hone x
  · rintro x h hrow
    rw [rowIncluded_eq_true_iff] at hrow
    exact (hone x).mp (h ▸ hrow.2.2.2.2.2.2.1)

/-- Witness for C5 at a concrete board and selections. -/
theorem C5_bool_filter_witness :
    smdMatch ["Yes", "No"] false = true ∧
    (smdMatch ["No"] false = true ↔
       (if (false : Bool) then "Yes" else "No") = "No") :=
  ⟨(C5_bool_filter (boardOfFlash 0)
      { emptyFilter with smdSel := ["Yes", "No"] }).2.1 rfl,
   (C5_bool_filter (boardOfFlash 0)
      { emptyFilter with smdSel := ["No"] }).2.2.1 "No" rfl⟩

/-- C6 counterexample: after an image load failure in the freshly
opened preview dialog, the image element is not hidden: its display is
block, contradicting the claim that the image is hidden in the error
state. -/
theorem C6_counterexample :
    ¬ ((imgOnerror (showModal (some "Pico") initialModal)).imgDisplayed
         = false) := by
  decide

/-- C6 amended: when the preview image fails to load, the fallback
error caption is installed as the alt text, the spinner is hidden, and
the image element is shown with display block while its source stays
empty, so only the caption renders; the failure is recovered locally
and is non-fatal. -/
theorem C6_error_state (attr : Option String) (s : ModalState) :
    (imgOnerror (showModal attr s)).imgAlt = "Failed to load image!" ∧
    (imgOnerror (showModal attr s)).spinner = some false ∧
    (imgOnerror (showModal attr s)).imgDisplayed = true ∧
    (imgOnerror (showModal attr s)).imgSrc = "" := by
  simp [imgOnerror, showModal]

/-- C9: dismissal of the preview dialog clears the image source, resets
the title to its default and hides the spinner when one exists, and a
subsequent open starts from the same state as an open from a fresh
modal: no stale image or title survives. -/
theorem C9_hide_resets (s : ModalState) :
    (hideModal s).imgSrc = "" ∧
    (hideModal s).title = defaultTitle ∧
    (hideModal s).imgDisplayed = false ∧
    (∀ b, s.spinner = some b → (hideModal s).spinner = some false) ∧
    (∀ attr, showModal attr (hideModal s) = showModal attr s ∧
       (showModal attr (hideModal s)).imgSrc = "") := by
  refine ⟨rfl, rfl, rfl, ?_, fun attr => ⟨rfl, rfl⟩⟩
  intro b hb
  simp [hideModal, hb]

/-- Witness for C9 at a concrete modal state with a visible spinner and
a stale image. -/
theorem C9_hide_resets_witness :
    (hideModal
        { title := "Pico", imgSrc := "pico.png", imgAlt := "Pico"
        , imgDisplayed := true, spinner := some true }).imgSrc = "" ∧
    (hideModal
        { title := "Pico", imgSrc := "pico.png", imgAlt := "Pico"
        , imgDisplayed := true, spinner := some true }).spinner
      = some false :=
  ⟨(C9_hide_resets _).1, (C9_hide_resets _).2.2.2.1 true rfl⟩

/-- The regex replacement keeps exactly the word characters, in
order. -/
theorem replaceNonWord_eq_filter (cs : List Char) :
    replaceNonWord cs = cs.filter (fun c => c.isAlphanum || c == '_') := by
  induction cs with
  | nil => rfl
  | cons c cs ih =>
      by_cases h : (c.isAlphanum || c == '_') = true
      · simp [replaceNonWord, h, ih, List.filter_cons]
      · simp [replaceNonWord, h, ih, List.filter_cons]

/-- C7 counterexample: the value a_b contains the non-alphanumeric
character _ which the code does not strip, so the generated id differs
from the claimed key-plus-alphanumeric-stripped-value form. -/
theorem C7_counterexample :
    optionId "chip" "a_b" ≠ specAlnumOptionId "chip" "a_b" := by
  decide

/-- C7 amended: the generated control id is the attribute key, a
hyphen, and the option value with every non-word character removed,
where the word characters are the ASCII letters, the digits and the
underscore; the computation is a function of the (key, value) pair, so
it is deterministic. -/
theorem C7_id_generation (key v : String) :
    optionId key v =
      key ++ "-" ++ String.mk (v.data.filter (fun c => c.isAlphanum || c == '_')) := by
  unfold optionId stripNonWord
  rw [replaceNonWord_eq_filter]

/-- C10: a maximum range input whose value parses to 0 imposes no upper
bound: the predicate behaves exactly as with a blank maximum input,
because the falsy parsed 0 is replaced by the Infinity default. -/
theorem C10_zero_max_unbounded (f : FilterState) (row : Board) :
    (∀ (vmin : Option Int) (bytes : Nat),
       rangeMatch vmin (some 0) bytes = rangeMatch vmin none bytes) ∧
    rowIncluded { f with flashMax := some 0 } row =
      rowIncluded { f with flashMax := none } row ∧
    rowIncluded { f with ramMax := some 0 } row =
      rowIncluded { f with ramMax := none } row := by
  refine ⟨fun vmin bytes => ?_, ?_, ?_⟩ <;>
    simp [rowIncluded, rangeMatch, parsedMax]

/-- C3: the minimum and maximum range inputs default to 0 and to no
upper bound on blank or unparseable input; the row byte count divided
by 1024 is compared against the inclusive [min, max] bound, so a record
exactly at a bound is included; with flashMax = 256 the records of
131072, 262144 and 524288 flash bytes are kept, kept and dropped. -/
theorem C3_range_parsing_inclusive (lo hi : Int) (hlo : 0 < lo) (hhi : 0 < hi) :
    parsedMin none = 0 ∧ parsedMax none = none ∧
    rangeMatch none (some hi) (1024 * hi.toNat) = true ∧
    rangeMatch (some lo) none (1024 * lo.toNat) = true ∧
    rowIncluded { emptyFilter with flashMax := some 256 }
      (boardOfFlash 131072) = true ∧
    rowIncluded { emptyFilter with flashMax := some 256 }
      (boardOfFlash 262144) = true ∧
    rowIncluded { emptyFilter with flashMax := some 256 }
      (boardOfFlash 524288) = false := by
  have hcast : ∀ n : Int, 0 < n →
      ((1024 * n.toNat : Nat) : Rat) = 1024 * (n : Rat) := by
    intro n hn
    push_cast
    rw [← Int.cast_natCast (R := Rat), Int.toNat_of_nonneg hn.le]
  refine ⟨rfl, rfl, ?_, ?_, ?_, ?_, ?_⟩
  · have hne : (hi == 0) = false := by simp [hhi.ne']
    simp only [rangeMatch, parsedMin, parsedMax, hne, Bool.false_eq_true,
      if_false, Int.cast_zero, Bool.and_eq_true, decide_eq_true_eq,
      hcast hi hhi]
    constructor
    · positivity
    · rw [mul_comm, mul_div_assoc]
      norm_num
  · have hne : (lo == 0) = false := by simp [hlo.ne']
    simp only [rangeMatch, parsedMin, parsedMax, hne, Bool.false_eq_true,
      if_false, Bool.and_true, decide_eq_true_eq, hcast lo hlo]
    rw [mul_comm, mul_div_assoc]
    norm_num
  · simp only [rowIncluded, emptyFilter, boardOfFlash, singleMatch,
      multiMatch, smdMatch, rangeMatch, parsedMin, parsedMax]
    norm_num
  · simp only [rowIncluded, emptyFilter, boardOfFlash, singleMatch,
      multiMatch, smdMatch, rangeMatch, parsedMin, parsedMax]
    norm_num
  · simp only [rowIncluded, emptyFilter, boardOfFlash, singleMatch,
      multiMatch, smdMatch, rangeMatch, parsedMin, parsedMax]
    norm_num

/-- Witness for C3 at the bound 256 KB. -/
theorem C3_range_parsing_inclusive_witness :
    rangeMatch none (some 256) (1024 * (256 : Int).toNat) = true ∧
    rowIncluded { emptyFilter with flashMax := some 256 }
      (boardOfFlash 524288) = false := by
  have h := C3_range_parsing_inclusive 256 256 (by decide) (by decide)
  exact ⟨h.2.2.1, h.2.2.2.2.2.2⟩

/-! Lemmas for the filter-domain builder. -/

/-- Membership after a set insertion. -/
theorem mem_insertSet (s : List String) (x o : String) :
    o ∈ insertSet s x ↔ o ∈ s ∨ o = x := by
  by_cases h : x ∈ s
  · have hc : s.contains x = true := by simpa using h
    simp only [insertSet, hc, if_true]
    constructor
    · exact Or.inl
    · rintro (ho | rfl)
      · exact ho
      · exact h
  · simp [insertSet, h, List.mem_append]

/-- Set insertion keeps the accumulated option list duplicate-free. -/
theorem nodup_insertSet (s : List String) (x : String) (h : s.Nodup) :
    (insertSet s x).Nodup := by
  by_cases hx : x ∈ s
  · have hc : s.contains x = true := by simpa using hx
    simpa only [insertSet, hc, if_true] using h
  · simp [insertSet, hx, List.nodup_append, h, List.disjoint_singleton]

/-- Membership after folding a tag list into the set. -/
theorem mem_foldl_insertSet (xs s : List String) (o : String) :
    o ∈ xs.foldl insertSet s ↔ o ∈ s ∨ o ∈ xs := by
  induction xs generalizing s with
  | nil => simp
  | cons x xs ih =>
      rw [List.foldl_cons, ih, mem_insertSet]
      simp [or_assoc]

/-- Folding a tag list into the set keeps it duplicate-free. -/
theorem nodup_foldl_insertSet (xs s : List String) (h : s.Nodup) :
    (xs.foldl insertSet s).Nodup := by
  induction xs generalizing s with
  | nil => exact h
  | cons x xs ih => exact ih _ (nodup_insertSet _ _ h)

/-- The at-most-one value a single-valued attribute contributes to its
option set: nothing when absent or falsy, the value otherwise. -/
def truthyList (v : Option String) : List String :=
  match v with
  | none => []
  | some x => if x == "" then [] else [x]

/-- Membership in the truthy contribution. -/
theorem mem_truthyList (v : Option String) (o : String) :
    o ∈ truthyList v ↔ o ≠ "" ∧ v = some o := by
  cases v with
  | none => simp [truthyList]
  | some x =>
      by_cases hx : x = ""
      · subst hx
        constructor
        · intro hmem
          simp [truthyList] at hmem
        · rintro ⟨hne, heq⟩
          injection heq with h2
          exact absurd h2.symm hne
      · have hb : (x == "") = false := by simpa using hx
        simp only [truthyList, hb, Bool.false_eq_true, if_false,
          List.mem_singleton, Option.some.injEq]
        constructor
        · rintro rfl
          exact ⟨hx, rfl⟩
        · rintro ⟨-, rfl⟩
          rfl

/-- The single-valued collection step adds exactly the truthy
contribution. -/
theorem mem_addTruthy (s : List String) (v : Option String) (o : String) :
    o ∈ addTruthy s v ↔ o ∈ s ∨ o ∈ truthyList v := by
  cases v with
  | none => simp [addTruthy, truthyList]
  | some x =>
      by_cases hx : x = ""
      · subst hx
        simp [addTruthy, truthyList]
      · have hb : (x == "") = false := by simpa using hx
        simp only [addTruthy, truthyList, hb, Bool.false_eq_true, if_false,
          mem_insertSet, List.mem_singleton]

/-- The single-valued collection step keeps the set duplicate-free. -/
theorem nodup_addTruthy (s : List String) (v : Option String)
    (h : s.Nodup) : (addTruthy s v).Nodup := by
  cases v with
  | none => exact h
  | some x =>
      by_cases hb : (x == "") = true
      · simpa only [addTruthy, hb, if_true] using h
      · have hb' : (x == "") = false := by simpa using hb
        simp only [addTruthy, hb', Bool.false_eq_true, if_false]
        exact nodup_insertSet _ _ h

/-- The multi-valued collection step adds exactly the tags of a present
array. -/
theorem mem_addAll (s : List String) (v : Option (List String))
    (o : String) : o ∈ addAll s v ↔ o ∈ s ∨ o ∈ v.getD [] := by
  cases v with
  | none => simp [addAll]
  | some xs => simp [addAll, mem_foldl_insertSet]

/-- The multi-valued collection step keeps the set duplicate-free. -/
theorem nodup_addAll (s : List String) (v : Option (List String))
    (h : s.Nodup) : (addAll s v).Nodup := by
  cases v with
  | none => exact h
  | some xs => exact nodup_foldl_insertSet _ _ h

/-- Membership in a full fold of per-record contributions. -/
theorem mem_foldl_step (step : List String → Board → List String)
    (contrib : Board → List String)
    (hmem : ∀ s b o, o ∈ step s b ↔ o ∈ s ∨ o ∈ contrib b)
    (data : List Board) (s : List String) (o : String) :
    o ∈ data.foldl step s ↔ o ∈ s ∨ ∃ b ∈ data, o ∈ contrib b := by
  induction data generalizing s with
  | nil => simp
  | cons b bs ih =>
      rw [List.foldl_cons, ih, hmem]
      simp [or_assoc]

/-- A full fold of contribution steps keeps the set duplicate-free. -/
theorem nodup_foldl_step (step : List String → Board → List String)
    (hnd : ∀ s b, s.Nodup → (step s b).Nodup)
    (data : List Board) (s : List String) (h : s.Nodup) :
    (data.foldl step s).Nodup := by
  induction data generalizing s with
  | nil => exact h
  | cons b bs ih => exact ih _ (hnd _ _ h)

/-- The case-insensitive comparator is transitive. -/
theorem ciLe_trans (a b c : String) (hab : ciLe a b = true)
    (hbc : ciLe b c = true) : ciLe a c = true := by
  simp only [ciLe, decide_eq_true_eq] at *
  exact le_trans hab hbc

/-- The case-insensitive comparator is total. -/
theorem ciLe_total (a b : String) : (ciLe a b || ciLe b a) = true := by
  simp only [ciLe, Bool.or_eq_true, decide_eq_true_eq]
  exact le_total _ _

/-- The rendered values of a non-smd group built from a duplicate-free
option list are sorted under the case-insensitive comparator, are
duplicate-free, and are exactly the non-empty collected options. -/
theorem rendered_core (l : List String) (hnd : l.Nodup) :
    ((sortOptions l).filter (fun o => !(o == ""))).Pairwise
      (fun a b => ciLe a b = true) ∧
    ((sortOptions l).filter (fun o => !(o == ""))).Nodup ∧
    (∀ o, o ∈ (sortOptions l).filter (fun o => !(o == "")) ↔
       o ≠ "" ∧ o ∈ l) := by
  have hperm : (sortOptions l).Perm l := List.mergeSort_perm l ciLe
  refine ⟨List.Pairwise.filter _
      (List.sorted_mergeSort ciLe_trans ciLe_total l), ?_, ?_⟩
  · exact List.Nodup.filter _ (hperm.nodup_iff.mpr hnd)
  · intro o
    rw [List.mem_filter, hperm.mem_iff]
    simp [and_comm]

/-- Membership in the collected chip options. -/
theorem mem_chipOptions (data : List Board) (o : String) :
    o ∈ chipOptions data ↔ ∃ b ∈ data, o ∈ truthyList b.chip := by
  unfold chipOptions
  rw [mem_foldl_step (fun s b => addTruthy s b.chip)
      (fun b => truthyList b.chip) (fun s b o => mem_addTruthy s b.chip o)]
  simp

/-- Membership in the collected cores options. -/
theorem mem_coresOptions (data : List Board) (o : String) :
    o ∈ coresOptions data ↔ ∃ b ∈ data, o ∈ truthyList b.cores := by
  unfold coresOptions
  rw [mem_foldl_step (fun s b => addTruthy s b.cores)
      (fun b => truthyList b.cores) (fun s b o => mem_addTruthy s b.cores o)]
  simp

/-- Membership in the collected usb options. -/
theorem mem_usbOptions (data : List Board) (o : String) :
    o ∈ usbOptions data ↔ ∃ b ∈ data, o ∈ truthyList b.usb := by
  unfold usbOptions
  rw [mem_foldl_step (fun s b => addTruthy s b.usb)
      (fun b => truthyList b.usb) (fun s b o => mem_addTruthy s b.usb o)]
  simp

/-- Membership in the collected dimensions options. -/
theorem mem_dimensionsOptions (data : List Board) (o : String) :
    o ∈ dimensionsOptions data ↔ ∃ b ∈ data, o ∈ truthyList b.dimensions := by
  unfold dimensionsOptions
  rw [mem_foldl_step (fun s b => addTruthy s b.dimensions)
      (fun b => truthyList b.dimensions)
      (fun s b o => mem_addTruthy s b.dimensions o)]
  simp

/-- Membership in the collected connectivity options. -/
theorem mem_connectivityOptions (data : List Board) (o : String) :
    o ∈ connectivityOptions data ↔ ∃ b ∈ data, o ∈ b.connectivity.getD [] := by
  unfold connectivityOptions
  rw [mem_foldl_step (fun s b => addAll s b.connectivity)
      (fun b => b.connectivity.getD []) (fun s b o => mem_addAll s b.connectivity o)]
  simp

/-- Membership in the collected connectors options. -/
theorem mem_connectorsOptions (data : List Board) (o : String) :
    o ∈ connectorsOptions data ↔ ∃ b ∈ data, o ∈ b.connectors.getD [] := by
  unfold connectorsOptions
  rw [mem_foldl_step (fun s b => addAll s b.connectors)
      (fun b => b.connectors.getD []) (fun s b o => mem_addAll s b.connectors o)]
  simp

/-- The collected chip options are duplicate-free. -/
theorem nodup_chipOptions (data : List Board) : (chipOptions data).Nodup :=
  nodup_foldl_step _ (fun s b h => nodup_addTruthy s b.chip h) data []
    List.nodup_nil

/-- The collected cores options are duplicate-free. -/
theorem nodup_coresOptions (data : List Board) : (coresOptions data).Nodup :=
  nodup_foldl_step _ (fun s b h => nodup_addTruthy s b.cores h) data []
    List.nodup_nil

/-- The collected usb options are duplicate-free. -/
theorem nodup_usbOptions (data : List Board) : (usbOptions data).Nodup :=
  nodup_foldl_step _ (fun s b h => nodup_addTruthy s b.usb h) data []
    List.nodup_nil

/-- The collected dimensions options are duplicate-free. -/
theorem nodup_dimensionsOptions (data : List Board) :
    (dimensionsOptions data).Nodup :=
  nodup_foldl_step _ (fun s b h => nodup_addTruthy s b.dimensions h) data []
    List.nodup_nil

/-- The collected connectivity options are duplicate-free. -/
theorem nodup_connectivityOptions (data : List Board) :
    (connectivityOptions data).Nodup :=
  nodup_foldl_step _ (fun s b h => nodup_addAll s b.connectivity h) data []
    List.nodup_nil

/-- The collected connectors options are duplicate-free. -/
theorem nodup_connectorsOptions (data : List Board) :
    (connectorsOptions data).Nodup :=
  nodup_foldl_step _ (fun s b h => nodup_addAll s b.connectors h) data []
    List.nodup_nil

/-- Rendered-group property for a single-valued attribute. -/
theorem rendered_single (data : List Board) (opts : List String)
    (proj : Board → Option String)
    (hopts : ∀ o, o ∈ opts ↔ ∃ b ∈ data, o ∈ truthyList (proj b))
    (hnd : opts.Nodup) :
    ((sortOptions opts).filter (fun o => !(o == ""))).Pairwise
      (fun a b => ciLe a b = true) ∧
    ((sortOptions opts).filter (fun o => !(o == ""))).Nodup ∧
    (∀ o, o ∈ (sortOptions opts).filter (fun o => !(o == "")) ↔
       o ≠ "" ∧ ∃ b ∈ data, o ∈ (proj b).toList) := by
  obtain ⟨h1, h2, h3⟩ := rendered_core opts hnd
  refine ⟨h1, h2, fun o => ?_⟩
  rw [h3 o, hopts o]
  constructor
  · rintro ⟨hne, b, hb, hmem⟩
    rw [mem_truthyList] at hmem
    exact ⟨hne, b, hb, by simp [hmem.2]⟩
  · rintro ⟨hne, b, hb, hmem⟩
    refine ⟨hne, b, hb, ?_⟩
    rw [mem_truthyList]
    rcases hproj : proj b with _ | x
    · rw [hproj] at hmem
      simp at hmem
    · rw [hproj] at hmem
      simp only [Option.toList_some, List.mem_singleton] at hmem
      subst hmem
      exact ⟨hne, rfl⟩

/-- Rendered-group property for a multi-valued attribute. -/
theorem rendered_multi (data : List Board) (opts : List String)
    (proj : Board → Option (List String))
    (hopts : ∀ o, o ∈ opts ↔ ∃ b ∈ data, o ∈ (proj b).getD [])
    (hnd : opts.Nodup) :
    ((sortOptions opts).filter (fun o => !(o == ""))).Pairwise
      (fun a b => ciLe a b = true) ∧
    ((sortOptions opts).filter (fun o => !(o == ""))).Nodup ∧
    (∀ o, o ∈ (sortOptions opts).filter (fun o => !(o == "")) ↔
       o ≠ "" ∧ ∃ b ∈ data, o ∈ (proj b).getD []) := by
  obtain ⟨h1, h2, h3⟩ := rendered_core opts hnd
  exact ⟨h1, h2, fun o => by rw [h3 o, hopts o]⟩

/-- C8: for every loaded dataset, each derived filter group renders its
checkboxes sorted under the case-insensitive comparator, without
duplicates, and with exactly the non-empty observed values of its
attribute; the surface-mount group renders the fixed pair Yes, No. -/
theorem C8_render_order (data : List Board) :
    (∀ key, key ∈ (["chip", "cores", "usb", "dimensions", "connectivity",
        "connectors"] : List String) →
      (renderedValues key data).Pairwise (fun a b => ciLe a b = true) ∧
      (renderedValues key data).Nodup ∧
      (∀ o, o ∈ renderedValues key data ↔
         o ≠ "" ∧ ∃ b ∈ data, o ∈ observedValues key b)) ∧
    renderedValues "smd" data = ["Yes", "No"] := by
  refine ⟨?_, rfl⟩
  intro key hkey
  simp only [List.mem_cons, List.not_mem_nil, or_false] at hkey
  rcases hkey with rfl | rfl | rfl | rfl | rfl | rfl
  · exact rendered_single data (chipOptions data) Board.chip
      (mem_chipOptions data) (nodup_chipOptions data)
  · exact rendered_single data (coresOptions data) Board.cores
      (mem_coresOptions data) (nodup_coresOptions data)
  · exact rendered_single data (usbOptions data) Board.usb
      (mem_usbOptions data) (nodup_usbOptions data)
  · exact rendered_single data (dimensionsOptions data) Board.dimensions
      (mem_dimensionsOptions data) (nodup_dimensionsOptions data)
  · exact rendered_multi data (connectivityOptions data) Board.connectivity
      (mem_connectivityOptions data) (nodup_connectivityOptions data)
  · exact rendered_multi data (connectorsOptions data) Board.connectors
      (mem_connectorsOptions data) (nodup_connectorsOptions data)

/-- A one-record dataset for the C8 witness. -/
def c8Data : List Board :=
  [{ boardOfFlash 1 with chip := some "RP2040", connectivity := some ["Wi-Fi"] }]

/-- Witness for C8 at a concrete dataset and group. -/
theorem C8_render_order_witness :
    (renderedValues "chip" c8Data).Nodup ∧
    renderedValues "smd" c8Data = ["Yes", "No"] :=
  ⟨((C8_render_order c8Data).1 "chip" (by decide)).2.1,
   (C8_render_order c8Data).2⟩

end PicoBoards
